import Mathlib

/-!
Verification of the scalar-expression core of FnckSQL
(`src/expression/mod.rs`): the `ScalarExpression` algebra, its tree
walkers (`return_type`, `output_name`, `output_column`, `has_agg_call`,
`has_count_star`, `referenced_columns`, `unpack_alias`), the reference
rewriter `try_reference`, and the evaluator binder `bind_evaluator`.

The expression module's external collaborators (the logical-type system,
the catalog, the value representation, the aggregate-kind enum and the
evaluator factory) are not part of the translated source; they are
modelled from the specification and marked `Modelled from the spec` in
their doc comments.  Rust panics (`unreachable!`) are modelled by
`Option`/`Except` failure values.
-/

set_option maxHeartbeats 1000000

/-- Modelled from the spec (§3.1, external type system): character length
units for `Varchar`, from the external parser crate. -/
inductive CharLengthUnits where
  | Characters
  | Octets
deriving DecidableEq, Repr

/-- Modelled from the spec (§3.1, external type system): the `LogicalType`
enum — boolean, signed integers `Tinyint`..`Bigint`, unsigned integers
`UTinyint`..`UBigint`, floating, decimal, temporal, `Varchar(len?, units)`,
`Tuple`. -/
inductive LogicalType where
  | Boolean
  | Tinyint
  | Smallint
  | Integer
  | Bigint
  | UTinyint
  | USmallint
  | UInteger
  | UBigint
  | Float
  | Double
  | Decimal
  | Date
  | DateTime
  | Varchar (len : Option Nat) (units : CharLengthUnits)
  | Tuple
deriving DecidableEq, Repr

/-- Modelled from the spec (§3.1, external type system):
`is_unsigned_numeric(t)` is true exactly on the four unsigned integer
types (§4.4 lists `UTinyint`, `USmallint`, `UInteger`, `UBigint`). -/
def LogicalType.is_unsigned_numeric : LogicalType → Bool
  | .UTinyint | .USmallint | .UInteger | .UBigint => true
  | _ => false

/-- Rank of a type on the signed-integer promotion ladder (helper for the
spec-modelled `max_logical_type`). -/
def LogicalType.numeric_rank : LogicalType → Option Nat
  | .Tinyint => some 0
  | .Smallint => some 1
  | .Integer => some 2
  | .Bigint => some 3
  | _ => none

/-- Modelled from the spec (§3.1, external type system):
`max_logical_type(a, b)` is "the SQL-promotion join of two types; fails if
the types are incompatible".  The model realises the join on equal types
and on the signed-integer ladder and fails elsewhere; the development only
relies on it being a deterministic partial join (idempotent on equal
types, with both succeeding and failing instances). -/
def LogicalType.max_logical_type (a b : LogicalType) : Option LogicalType :=
  if a = b then some a
  else
    match a.numeric_rank, b.numeric_rank with
    | some ra, some rb => if ra ≤ rb then some b else some a
    | _, _ => none

/-- Modelled from the spec (§3.1, external type system): textual rendering
of a logical type, used by `output_name` for `TypeCast` nodes. -/
def LogicalType.display : LogicalType → String
  | .Boolean => "Boolean"
  | .Tinyint => "Tinyint"
  | .Smallint => "Smallint"
  | .Integer => "Integer"
  | .Bigint => "Bigint"
  | .UTinyint => "UTinyint"
  | .USmallint => "USmallint"
  | .UInteger => "UInteger"
  | .UBigint => "UBigint"
  | .Float => "Float"
  | .Double => "Double"
  | .Decimal => "Decimal"
  | .Date => "Date"
  | .DateTime => "DateTime"
  | .Varchar _ _ => "Varchar"
  | .Tuple => "Tuple"

/-- Modelled from the spec (§3.2, external catalog): the stable identity
of a catalog column, "used for equality-by-identity across expression
trees".  Columns synthesised by `output_column` carry `none` for both the
relation and the id, so two synthesised columns agree exactly when their
names (the `output_name` renderings) agree. -/
structure ColumnSummary where
  relation : Option String
  id : Option Nat
  name : String
deriving DecidableEq, Repr

/-- Modelled from the spec (§3.2, external catalog): the per-column
descriptor handed to `ColumnDesc::new(datatype, is_primary, is_unique,
default)`; only the datatype is read back by the core. -/
structure ColumnDesc where
  column_datatype : LogicalType
  is_primary : Bool
  is_unique : Bool
  default_value : Option Unit
deriving DecidableEq, Repr

/-- Mirrors `ColumnDesc::new`. -/
def ColumnDesc.new (ty : LogicalType) (is_primary is_unique : Bool)
    (default_value : Option Unit) : ColumnDesc :=
  ⟨ty, is_primary, is_unique, default_value⟩

/-- Modelled from the spec (§3.2, external catalog): a `ColumnRef` handle
with its `summary`, nullability and descriptor. -/
structure ColumnCatalog where
  summary : ColumnSummary
  nullable : Bool
  desc : ColumnDesc
deriving DecidableEq, Repr

/-- Mirrors `ColumnCatalog::new(name, nullable, desc)`: a freshly
synthesised column has no relation and no id, only a name. -/
def ColumnCatalog.new (name : String) (nullable : Bool) (desc : ColumnDesc) :
    ColumnCatalog :=
  ⟨⟨none, none, name⟩, nullable, desc⟩

/-- Mirrors `ColumnCatalog::datatype`. -/
def ColumnCatalog.datatype (c : ColumnCatalog) : LogicalType :=
  c.desc.column_datatype

/-- Modelled from the spec (§3.2): `full_name` is the fully-qualified
string of the column. -/
def ColumnCatalog.full_name (c : ColumnCatalog) : String :=
  match c.summary.relation with
  | some r => r ++ "." ++ c.summary.name
  | none => c.summary.name

/-- Modelled from the spec (§3.3, external value system): a `ValueRef` is
an immutable SQL literal carrying a `logical_type` and a textual
rendering. -/
structure Value where
  logical_type : LogicalType
  display : String
deriving DecidableEq, Repr

/-- Modelled from the spec (§6, external aggregate module): the
aggregation-kind enumeration. -/
inductive AggKind where
  | Avg
  | Max
  | Min
  | Sum
  | Count
deriving DecidableEq, Repr

/-- Modelled from the spec (§6): `allow_distinct()` on the aggregate kind;
only its rendering effect on `output_name` matters here, so the model
allows `distinct` uniformly. -/
def AggKind.allow_distinct : AggKind → Bool := fun _ => true

/-- Debug rendering of an aggregate kind, as produced by the derived Rust
`Debug` used in `output_name`. -/
def AggKind.debug_str : AggKind → String
  | .Avg => "Avg"
  | .Max => "Max"
  | .Min => "Min"
  | .Sum => "Sum"
  | .Count => "Count"

/-- The `TrimWhereField` of the external parser crate. -/
inductive TrimWhereField where
  | Both
  | Leading
  | Trailing
deriving DecidableEq, Repr

/-- The `UnaryOperator` enum of `expression/mod.rs`. -/
inductive UnaryOperator where
  | Plus
  | Minus
  | Not
deriving DecidableEq, Repr

/-- The `BinaryOperator` enum of `expression/mod.rs`. -/
inductive BinaryOperator where
  | Plus
  | Minus
  | Multiply
  | Divide
  | Modulo
  | StringConcat
  | Gt
  | Lt
  | GtEq
  | LtEq
  | Spaceship
  | Eq
  | NotEq
  | Like (escape : Option Char)
  | NotLike (escape : Option Char)
  | And
  | Or
  | Xor
deriving DecidableEq, Repr

/-- The `Display` impl for `UnaryOperator` in `expression/mod.rs`. -/
def UnaryOperator.display : UnaryOperator → String
  | .Plus => "+"
  | .Minus => "-"
  | .Not => "!"

/-- The `Display` impl for `BinaryOperator` in `expression/mod.rs`
(`like`/`not like` append `(escape: X)` when an escape char is given). -/
def BinaryOperator.display : BinaryOperator → String
  | .Plus => "+"
  | .Minus => "-"
  | .Multiply => "*"
  | .Divide => "/"
  | .Modulo => "mod"
  | .StringConcat => "&"
  | .Gt => ">"
  | .Lt => "<"
  | .GtEq => ">="
  | .LtEq => "<="
  | .Spaceship => "<=>"
  | .Eq => "="
  | .NotEq => "!="
  | .And => "&&"
  | .Or => "||"
  | .Xor => "^"
  | .Like none => "like"
  | .Like (some c) => "like" ++ "(escape: " ++ c.toString ++ ")"
  | .NotLike none => "not like"
  | .NotLike (some c) => "not like" ++ "(escape: " ++ c.toString ++ ")"

/-- Modelled from the spec (§6, external function descriptors): the inner
descriptor of a scalar or table function, "providing `summary().name`,
declared `return_type()`".  The argument list lives in the expression
node itself. -/
structure FunctionInner where
  summary_name : String
  return_ty : LogicalType
deriving DecidableEq, Repr

/-- An evaluator produced by the evaluator factory for a unary operator.
Modelled from the spec (glossary): a "runtime kernel chosen per
`(logical_type, operator)`"; the model records exactly that choice. -/
structure UnaryEvaluatorBox where
  ty : LogicalType
  op : UnaryOperator
deriving DecidableEq, Repr

/-- An evaluator produced by the evaluator factory for a binary operator,
recording the `(logical_type, operator)` it was created for. -/
structure BinaryEvaluatorBox where
  ty : LogicalType
  op : BinaryOperator
deriving DecidableEq, Repr

/-- Modelled from the spec (§6, external evaluator factory): the factory
interface `binary(t, op) → evaluator | error`, `unary(t, op) → evaluator |
error`.  `bind_evaluator` is parameterised over it; `none` models the
factory's `UnsupportedOperator` failure. -/
structure EvaluatorFactory where
  binary_create : LogicalType → BinaryOperator → Option BinaryEvaluatorBox
  unary_create : LogicalType → UnaryOperator → Option UnaryEvaluatorBox

/-- The canonical stateless-lookup factory: every `(type, op)` pair has an
evaluator, and the evaluator records the pair it was created for. -/
def specFactory : EvaluatorFactory :=
  ⟨fun t op => some ⟨t, op⟩, fun t op => some ⟨t, op⟩⟩

/-- The error taxonomy relevant to the core (spec §7).  `Unreachable`
models a Rust `unreachable!` panic (spec: `InternalInvariant`), kept
distinct from the two user-level binding errors. -/
inductive DatabaseError where
  | TypeMismatch
  | UnsupportedOperator
  | Unreachable
deriving DecidableEq, Repr

mutual
/-- The `AliasType` enum of `expression/mod.rs`: a naming alias or an
expression alias. -/
inductive AliasType where
  | Name (s : String)
  | Expr (e : ScalarExpression)

/-- The `ScalarExpression` enum of `expression/mod.rs`, variant for
variant.  `evaluator` fields are `Option`s that are `none` until the
binder runs, exactly as in the source. -/
inductive ScalarExpression where
  | Constant (v : Value)
  | ColumnRef (c : ColumnCatalog)
  | Alias (expr : ScalarExpression) (al : AliasType)
  | TypeCast (expr : ScalarExpression) (ty : LogicalType)
  | IsNull (negated : Bool) (expr : ScalarExpression)
  | Unary (op : UnaryOperator) (expr : ScalarExpression)
      (evaluator : Option UnaryEvaluatorBox) (ty : LogicalType)
  | Binary (op : BinaryOperator) (left_expr right_expr : ScalarExpression)
      (evaluator : Option BinaryEvaluatorBox) (ty : LogicalType)
  | AggCall (distinct : Bool) (kind : AggKind) (args : List ScalarExpression)
      (ty : LogicalType)
  | In (negated : Bool) (expr : ScalarExpression) (args : List ScalarExpression)
  | Between (negated : Bool) (expr left_expr right_expr : ScalarExpression)
  | SubString (expr : ScalarExpression)
      (for_expr from_expr : Option ScalarExpression)
  | Position (expr in_expr : ScalarExpression)
  | Trim (expr : ScalarExpression) (trim_what_expr : Option ScalarExpression)
      (trim_where : Option TrimWhereField)
  | Empty
  | Reference (expr : ScalarExpression) (pos : Nat)
  | Tuple (args : List ScalarExpression)
  | ScalaFunction (args : List ScalarExpression) (inner : FunctionInner)
  | TableFunction (args : List ScalarExpression) (inner : FunctionInner)
  | If (condition left_expr right_expr : ScalarExpression) (ty : LogicalType)
  | IfNull (left_expr right_expr : ScalarExpression) (ty : LogicalType)
  | NullIf (left_expr right_expr : ScalarExpression) (ty : LogicalType)
  | Coalesce (exprs : List ScalarExpression) (ty : LogicalType)
  | CaseWhen (operand_expr : Option ScalarExpression)
      (expr_pairs : List (ScalarExpression × ScalarExpression))
      (else_expr : Option ScalarExpression) (ty : LogicalType)
end

/-- Mirrors `ScalarExpression::unpack_alias` (the owning form): when the
alias is an expression alias the source recurses on the alias expression
(discarding the aliased expression); for a naming alias it recurses on
the aliased expression; anything else is returned unchanged.  Only the
root chain of `Alias` wrappers is stripped. -/
def ScalarExpression.unpack_alias : ScalarExpression → ScalarExpression
  | .Alias _ (.Expr e) => e.unpack_alias
  | .Alias e (.Name _) => e.unpack_alias
  | e => e

/-- Mirrors `ScalarExpression::return_type`.  `none` models the
`unreachable!` panic on `Empty` and `TableFunction`. -/
def ScalarExpression.return_type : ScalarExpression → Option LogicalType
  | .Constant v => some v.logical_type
  | .ColumnRef col => some col.datatype
  | .Binary _ _ _ _ ty => some ty
  | .Unary _ _ _ ty => some ty
  | .TypeCast _ ty => some ty
  | .AggCall _ _ _ ty => some ty
  | .If _ _ _ ty => some ty
  | .IfNull _ _ ty => some ty
  | .NullIf _ _ ty => some ty
  | .Coalesce _ ty => some ty
  | .CaseWhen _ _ _ ty => some ty
  | .IsNull _ _ => some .Boolean
  | .In _ _ _ => some .Boolean
  | .Between _ _ _ _ => some .Boolean
  | .SubString _ _ _ => some (.Varchar none .Characters)
  | .Position _ _ => some .Integer
  | .Trim _ _ _ => some (.Varchar none .Characters)
  | .Alias e _ => e.return_type
  | .Reference e _ => e.return_type
  | .Empty => none
  | .TableFunction _ _ => none
  | .Tuple _ => some .Tuple
  | .ScalaFunction _ inner => some inner.return_ty

mutual
/-- Mirrors `ScalarExpression::output_name`: the deterministic canonical
rendering.  The Rust `Display` impl for `ScalarExpression` forwards to
`output_name`, so every `format!("{}", e)` occurrence recurses here too.
`none` models the `unreachable!` panic on `Empty`. -/
def ScalarExpression.output_name : ScalarExpression → Option String
  | .Constant v => some v.display
  | .ColumnRef col => some col.full_name
  | .Alias _ (.Name a) => some a
  | .Alias e (.Expr alias_expr) =>
      match e.output_name with
      | none => none
      | some se =>
        match alias_expr.output_name with
        | none => none
        | some sa => some ("(" ++ se ++ ") as (" ++ sa ++ ")")
  | .TypeCast e ty =>
      match e.output_name with
      | none => none
      | some se => some ("cast (" ++ se ++ " as " ++ ty.display ++ ")")
  | .IsNull negated e =>
      match e.output_name with
      | none => none
      | some se =>
        some (se ++ " " ++ (if negated then "is not null" else "is null"))
  | .Unary op e _ _ =>
      match e.output_name with
      | none => none
      | some se => some (op.display ++ se)
  | .Binary op l r _ _ =>
      match l.output_name with
      | none => none
      | some sl =>
        match r.output_name with
        | none => none
        | some sr => some ("(" ++ sl ++ " " ++ op.display ++ " " ++ sr ++ ")")
  | .AggCall distinct kind args _ =>
      match ScalarExpression.output_name_list args with
      | none => none
      | some ss =>
        some (kind.debug_str ++ "("
          ++ (if kind.allow_distinct && distinct then "distinct " else "")
          ++ String.intercalate ", " ss ++ ")")
  | .In negated e args =>
      match e.output_name with
      | none => none
      | some se =>
        match ScalarExpression.output_name_list args with
        | none => none
        | some ss =>
          some (se ++ " " ++ (if negated then "not in" else "in")
            ++ " (" ++ String.intercalate ", " ss ++ ")")
  | .Between negated e l r =>
      match e.output_name with
      | none => none
      | some se =>
        match l.output_name with
        | none => none
        | some sl =>
          match r.output_name with
          | none => none
          | some sr =>
            some (se ++ " " ++ (if negated then "not between" else "between")
              ++ " [" ++ sl ++ ", " ++ sr ++ "]")
  | .SubString e for_expr from_expr =>
      match e.output_name with
      | none => none
      | some se =>
        match ScalarExpression.output_name_tagged "from" from_expr with
        | none => none
        | some sfrom =>
          match ScalarExpression.output_name_tagged "for" for_expr with
          | none => none
          | some sfor => some ("substring(" ++ se ++ sfrom ++ sfor ++ ")")
  | .Position e in_e =>
      match e.output_name with
      | none => none
      | some se =>
        match in_e.output_name with
        | none => none
        | some si => some ("position(" ++ se ++ " in " ++ si ++ ")")
  | .Trim e trim_what_expr trim_where =>
      match (match trim_what_expr with
             | none => some " "
             | some w => w.output_name) with
      | none => none
      | some what =>
        match e.output_name with
        | none => none
        | some se =>
          let where_str :=
            match trim_where with
            | some .Both => "both '" ++ what ++ "' from"
            | some .Leading => "leading '" ++ what ++ "' from"
            | some .Trailing => "trailing '" ++ what ++ "' from"
            | none => if what = "" then "" else "'" ++ what ++ "' from"
          some ("trim(" ++ where_str ++ " " ++ se ++ ")")
  | .Reference e _ => e.output_name
  | .Empty => none
  | .Tuple args =>
      match ScalarExpression.output_name_list args with
      | none => none
      | some ss => some ("(" ++ String.intercalate ", " ss ++ ")")
  | .ScalaFunction args inner =>
      match ScalarExpression.output_name_list args with
      | none => none
      | some ss =>
        some (inner.summary_name ++ "(" ++ String.intercalate ", " ss ++ ")")
  | .TableFunction args inner =>
      match ScalarExpression.output_name_list args with
      | none => none
      | some ss =>
        some (inner.summary_name ++ "(" ++ String.intercalate ", " ss ++ ")")
  | .If c l r _ =>
      match c.output_name with
      | none => none
      | some sc =>
        match l.output_name with
        | none => none
        | some sl =>
          match r.output_name with
          | none => none
          | some sr => some ("if " ++ sc ++ " (" ++ sl ++ ", " ++ sr ++ ")")
  | .IfNull l r _ =>
      match l.output_name with
      | none => none
      | some sl =>
        match r.output_name with
        | none => none
        | some sr => some ("ifnull(" ++ sl ++ ", " ++ sr ++ ")")
  | .NullIf l r _ =>
      -- The source renders `NullIf` identically to `IfNull` (spec §9 notes
      -- this as a likely rendering bug; it is translated as written).
      match l.output_name with
      | none => none
      | some sl =>
        match r.output_name with
        | none => none
        | some sr => some ("ifnull(" ++ sl ++ ", " ++ sr ++ ")")
  | .Coalesce exprs _ =>
      match ScalarExpression.output_name_list exprs with
      | none => none
      | some ss => some ("coalesce(" ++ String.intercalate ", " ss ++ ")")
  | .CaseWhen operand_expr expr_pairs else_expr _ =>
      match ScalarExpression.output_name_opt_part "" operand_expr with
      | none => none
      | some sop =>
        match ScalarExpression.output_name_pairs expr_pairs with
        | none => none
        | some ps =>
          match ScalarExpression.output_name_opt_part "else " else_expr with
          | none => none
          | some sel =>
            some ("case " ++ sop ++ String.intercalate " " ps ++ " " ++ sel
              ++ "end")

/-- The `map(output_name).join(", ")` pattern of the source, split into the
list of renderings. -/
def ScalarExpression.output_name_list :
    List ScalarExpression → Option (List String)
  | [] => some []
  | e :: es =>
      match e.output_name with
      | none => none
      | some s =>
        match ScalarExpression.output_name_list es with
        | none => none
        | some ss => some (s :: ss)

/-- The `op(tag, num_expr)` closure of the `SubString` arm: renders
`", tag: name"` for a present sub-expression and `""` otherwise. -/
def ScalarExpression.output_name_tagged (tag : String) :
    Option ScalarExpression → Option String
  | none => some ""
  | some e =>
      match e.output_name with
      | none => none
      | some s => some (", " ++ tag ++ ": " ++ s)

/-- The `op(tag, expr)` closure of the `CaseWhen` arm: renders
`"tagname "` for a present sub-expression and `""` otherwise. -/
def ScalarExpression.output_name_opt_part (tag : String) :
    Option ScalarExpression → Option String
  | none => some ""
  | some e =>
      match e.output_name with
      | none => none
      | some s => some (tag ++ s ++ " ")

/-- The `when {} then {}` renderings of the `CaseWhen` pairs, later joined
with a single space. -/
def ScalarExpression.output_name_pairs :
    List (ScalarExpression × ScalarExpression) → Option (List String)
  | [] => some []
  | (w, t) :: rest =>
      match w.output_name with
      | none => none
      | some sw =>
        match t.output_name with
        | none => none
        | some st =>
          match ScalarExpression.output_name_pairs rest with
          | none => none
          | some ss => some (("when " ++ sw ++ " then " ++ st) :: ss)
end

/-- Mirrors `ScalarExpression::output_column`: a `ColumnRef` yields its
column; an expression-aliased `Alias` delegates to the alias expression
and a `Reference` to its retained expression; every other variant
synthesises a fresh nullable column named by `output_name` and typed by
`return_type` (both of which can panic, modelled by `none`). -/
def ScalarExpression.output_column : ScalarExpression → Option ColumnCatalog
  | .ColumnRef col => some col
  | .Alias _ (.Expr e) => e.output_column
  | .Reference e _ => e.output_column
  | e =>
      match e.output_name with
      | none => none
      | some name =>
        match e.return_type with
        | none => none
        | some ty =>
          some (ColumnCatalog.new name true (ColumnDesc.new ty false false none))

/-- The `output_exprs.iter().find_position(...)` step of `try_reference`:
scan the list in order and return the index of the first entry whose
output-column summary equals `s`.  The outer `Option` models a panic
inside `output_column` of a scanned entry; the inner one is the search
result. -/
def ScalarExpression.find_match_pos (s : ColumnSummary) :
    List ScalarExpression → Option (Option Nat)
  | [] => some none
  | e :: es =>
      match e.output_column with
      | none => none
      | some c =>
        if c.summary = s then some (some 0)
        else
          match ScalarExpression.find_match_pos s es with
          | none => none
          | some none => some none
          | some (some i) => some (some (i + 1))

mutual
/-- Mirrors `ScalarExpression::try_reference(&mut self, output_exprs)`.
The source first computes `self`'s output column, scans `output_exprs`
for a summary match and, on a hit, replaces `self` by
`Reference { expr: old self, pos }` (via the `Empty` swap) and returns;
only otherwise does it recurse into the children.  The in-place mutation
is modelled by returning the rewritten tree; `none` models a panic
(`unreachable!` on `Empty`, or a panic inside `output_column`). -/
def ScalarExpression.try_reference (self : ScalarExpression)
    (output_exprs : List ScalarExpression) : Option ScalarExpression :=
  match self.output_column with
  | none => none
  | some self_column =>
    match ScalarExpression.find_match_pos self_column.summary output_exprs with
    | none => none
    | some (some pos) => some (.Reference self pos)
    | some none =>
      match self with
      | .Alias e a =>
          match e.try_reference output_exprs with
          | none => none
          | some e' => some (.Alias e' a)
      | .TypeCast e ty =>
          match e.try_reference output_exprs with
          | none => none
          | some e' => some (.TypeCast e' ty)
      | .IsNull negated e =>
          match e.try_reference output_exprs with
          | none => none
          | some e' => some (.IsNull negated e')
      | .Unary op e ev ty =>
          match e.try_reference output_exprs with
          | none => none
          | some e' => some (.Unary op e' ev ty)
      | .Binary op l r ev ty =>
          match l.try_reference output_exprs with
          | none => none
          | some l' =>
            match r.try_reference output_exprs with
            | none => none
            | some r' => some (.Binary op l' r' ev ty)
      | .AggCall distinct kind args ty =>
          match ScalarExpression.try_reference_list args output_exprs with
          | none => none
          | some args' => some (.AggCall distinct kind args' ty)
      | .Coalesce exprs ty =>
          match ScalarExpression.try_reference_list exprs output_exprs with
          | none => none
          | some exprs' => some (.Coalesce exprs' ty)
      | .Tuple args =>
          match ScalarExpression.try_reference_list args output_exprs with
          | none => none
          | some args' => some (.Tuple args')
      | .In negated e args =>
          match e.try_reference output_exprs with
          | none => none
          | some e' =>
            match ScalarExpression.try_reference_list args output_exprs with
            | none => none
            | some args' => some (.In negated e' args')
      | .Between negated e l r =>
          match e.try_reference output_exprs with
          | none => none
          | some e' =>
            match l.try_reference output_exprs with
            | none => none
            | some l' =>
              match r.try_reference output_exprs with
              | none => none
              | some r' => some (.Between negated e' l' r')
      | .SubString e for_expr from_expr =>
          match e.try_reference output_exprs with
          | none => none
          | some e' =>
            match ScalarExpression.try_reference_opt for_expr output_exprs with
            | none => none
            | some for' =>
              match ScalarExpression.try_reference_opt from_expr output_exprs with
              | none => none
              | some from' => some (.SubString e' for' from')
      | .Position e in_e =>
          match e.try_reference output_exprs with
          | none => none
          | some e' =>
            match in_e.try_reference output_exprs with
            | none => none
            | some in' => some (.Position e' in')
      | .Trim e trim_what_expr trim_where =>
          match e.try_reference output_exprs with
          | none => none
          | some e' =>
            match ScalarExpression.try_reference_opt trim_what_expr output_exprs with
            | none => none
            | some what' => some (.Trim e' what' trim_where)
      | .Empty => none
      | .Constant v => some (.Constant v)
      | .ColumnRef c => some (.ColumnRef c)
      | .Reference e pos => some (.Reference e pos)
      | .ScalaFunction args inner =>
          match ScalarExpression.try_reference_list args output_exprs with
          | none => none
          | some args' => some (.ScalaFunction args' inner)
      | .TableFunction args inner =>
          match ScalarExpression.try_reference_list args output_exprs with
          | none => none
          | some args' => some (.TableFunction args' inner)
      | .If c l r ty =>
          match c.try_reference output_exprs with
          | none => none
          | some c' =>
            match l.try_reference output_exprs with
            | none => none
            | some l' =>
              match r.try_reference output_exprs with
              | none => none
              | some r' => some (.If c' l' r' ty)
      | .IfNull l r ty =>
          match l.try_reference output_exprs with
          | none => none
          | some l' =>
            match r.try_reference output_exprs with
            | none => none
            | some r' => some (.IfNull l' r' ty)
      | .NullIf l r ty =>
          match l.try_reference output_exprs with
          | none => none
          | some l' =>
            match r.try_reference output_exprs with
            | none => none
            | some r' => some (.NullIf l' r' ty)
      | .CaseWhen operand_expr expr_pairs else_expr ty =>
          match ScalarExpression.try_reference_opt operand_expr output_exprs with
          | none => none
          | some operand' =>
            match ScalarExpression.try_reference_pairs expr_pairs output_exprs with
            | none => none
            | some pairs' =>
              match ScalarExpression.try_reference_opt else_expr output_exprs with
              | none => none
              | some else' => some (.CaseWhen operand' pairs' else' ty)

/-- `try_reference` mapped over an argument list (the `for arg in args`
loops of the source). -/
def ScalarExpression.try_reference_list (args : List ScalarExpression)
    (output_exprs : List ScalarExpression) : Option (List ScalarExpression) :=
  match args with
  | [] => some []
  | e :: es =>
      match e.try_reference output_exprs with
      | none => none
      | some e' =>
        match ScalarExpression.try_reference_list es output_exprs with
        | none => none
        | some es' => some (e' :: es')

/-- `try_reference` on an optional child (the `if let Some(expr) = ...`
blocks of the source). -/
def ScalarExpression.try_reference_opt (o : Option ScalarExpression)
    (output_exprs : List ScalarExpression) : Option (Option ScalarExpression) :=
  match o with
  | none => some none
  | some e =>
      match e.try_reference output_exprs with
      | none => none
      | some e' => some (some e')

/-- `try_reference` over the `(when, then)` pairs of a `CaseWhen`. -/
def ScalarExpression.try_reference_pairs
    (pairs : List (ScalarExpression × ScalarExpression))
    (output_exprs : List ScalarExpression) :
    Option (List (ScalarExpression × ScalarExpression)) :=
  match pairs with
  | [] => some []
  | (a, b) :: rest =>
      match a.try_reference output_exprs with
      | none => none
      | some a' =>
        match b.try_reference output_exprs with
        | none => none
        | some b' =>
          match ScalarExpression.try_reference_pairs rest output_exprs with
          | none => none
          | some rest' => some ((a', b') :: rest')
end

/-- The inner `match ty { UTinyint => Tinyint, ... }` of the Unary arm of
`bind_evaluator`; `none` models its `_ => unreachable!` default. -/
def LogicalType.unsigned_to_signed : LogicalType → Option LogicalType
  | .UTinyint => some .Tinyint
  | .USmallint => some .Smallint
  | .UInteger => some .Integer
  | .UBigint => some .Bigint
  | _ => none

mutual
/-- Mirrors `ScalarExpression::bind_evaluator`, parameterised over the
external evaluator factory `F`.

Binary arm: bind both operands, take
`t = max_logical_type(return_type(left), return_type(right))` (failure is
a `TypeMismatch`), apply `fn_cast` (wrap an operand in `TypeCast { ty: t }`
exactly when its return type differs from `t`), then attach
`F.binary_create(t, op)` (failure is `UnsupportedOperator`).

Unary arm: bind the operand, read `ty = return_type(operand)` BEFORE any
wrapping; if `ty` is unsigned, wrap the operand in a cast to the
corresponding signed type; then attach `F.unary_create(ty, op)` — note the
source passes the pre-cast `ty`, not the signed type (lines 341 and 354).

`.error .Unreachable` models the `unreachable!` panics (the `Empty` arm
and a `return_type` panic on a bound operand); the in-place mutation is
modelled by returning the rebuilt tree. -/
def ScalarExpression.bind_evaluator (F : EvaluatorFactory) :
    ScalarExpression → Except DatabaseError ScalarExpression
  | .Binary op l r _ ty =>
      match l.bind_evaluator F with
      | .error d => .error d
      | .ok l' =>
        match r.bind_evaluator F with
        | .error d => .error d
        | .ok r' =>
          match l'.return_type with
          | none => .error .Unreachable
          | some tl =>
            match r'.return_type with
            | none => .error .Unreachable
            | some tr =>
              match LogicalType.max_logical_type tl tr with
              | none => .error .TypeMismatch
              | some t =>
                match F.binary_create t op with
                | none => .error .UnsupportedOperator
                | some box =>
                  .ok (.Binary op
                    (if tl = t then l' else .TypeCast l' t)
                    (if tr = t then r' else .TypeCast r' t)
                    (some box) ty)
  | .Unary op e _ ty =>
      match e.bind_evaluator F with
      | .error d => .error d
      | .ok e' =>
        match e'.return_type with
        | none => .error .Unreachable
        | some t =>
          if t.is_unsigned_numeric then
            match t.unsigned_to_signed with
            | none => .error .Unreachable
            | some s =>
              match F.unary_create t op with
              | none => .error .UnsupportedOperator
              | some box => .ok (.Unary op (.TypeCast e' s) (some box) ty)
          else
            match F.unary_create t op with
            | none => .error .UnsupportedOperator
            | some box => .ok (.Unary op e' (some box) ty)
  | .Alias e a =>
      match e.bind_evaluator F with
      | .error d => .error d
      | .ok e' => .ok (.Alias e' a)
  | .TypeCast e ty =>
      match e.bind_evaluator F with
      | .error d => .error d
      | .ok e' => .ok (.TypeCast e' ty)
  | .IsNull negated e =>
      match e.bind_evaluator F with
      | .error d => .error d
      | .ok e' => .ok (.IsNull negated e')
  | .AggCall distinct kind args ty =>
      match ScalarExpression.bind_evaluator_list F args with
      | .error d => .error d
      | .ok args' => .ok (.AggCall distinct kind args' ty)
  | .Coalesce exprs ty =>
      match ScalarExpression.bind_evaluator_list F exprs with
      | .error d => .error d
      | .ok exprs' => .ok (.Coalesce exprs' ty)
  | .Tuple args =>
      match ScalarExpression.bind_evaluator_list F args with
      | .error d => .error d
      | .ok args' => .ok (.Tuple args')
  | .In negated e args =>
      match e.bind_evaluator F with
      | .error d => .error d
      | .ok e' =>
        match ScalarExpression.bind_evaluator_list F args with
        | .error d => .error d
        | .ok args' => .ok (.In negated e' args')
  | .Between negated e l r =>
      match e.bind_evaluator F with
      | .error d => .error d
      | .ok e' =>
        match l.bind_evaluator F with
        | .error d => .error d
        | .ok l' =>
          match r.bind_evaluator F with
          | .error d => .error d
          | .ok r' => .ok (.Between negated e' l' r')
  | .SubString e for_expr from_expr =>
      match e.bind_evaluator F with
      | .error d => .error d
      | .ok e' =>
        match ScalarExpression.bind_evaluator_opt F for_expr with
        | .error d => .error d
        | .ok for' =>
          match ScalarExpression.bind_evaluator_opt F from_expr with
          | .error d => .error d
          | .ok from' => .ok (.SubString e' for' from')
  | .Position e in_e =>
      match e.bind_evaluator F with
      | .error d => .error d
      | .ok e' =>
        match in_e.bind_evaluator F with
        | .error d => .error d
        | .ok in' => .ok (.Position e' in')
  | .Trim e trim_what_expr trim_where =>
      match e.bind_evaluator F with
      | .error d => .error d
      | .ok e' =>
        match ScalarExpression.bind_evaluator_opt F trim_what_expr with
        | .error d => .error d
        | .ok what' => .ok (.Trim e' what' trim_where)
  | .Empty => .error .Unreachable
  | .Constant v => .ok (.Constant v)
  | .ColumnRef c => .ok (.ColumnRef c)
  | .Reference e pos => .ok (.Reference e pos)
  | .ScalaFunction args inner =>
      match ScalarExpression.bind_evaluator_list F args with
      | .error d => .error d
      | .ok args' => .ok (.ScalaFunction args' inner)
  | .TableFunction args inner =>
      match ScalarExpression.bind_evaluator_list F args with
      | .error d => .error d
      | .ok args' => .ok (.TableFunction args' inner)
  | .If c l r ty =>
      match c.bind_evaluator F with
      | .error d => .error d
      | .ok c' =>
        match l.bind_evaluator F with
        | .error d => .error d
        | .ok l' =>
          match r.bind_evaluator F with
          | .error d => .error d
          | .ok r' => .ok (.If c' l' r' ty)
  | .IfNull l r ty =>
      match l.bind_evaluator F with
      | .error d => .error d
      | .ok l' =>
        match r.bind_evaluator F with
        | .error d => .error d
        | .ok r' => .ok (.IfNull l' r' ty)
  | .NullIf l r ty =>
      match l.bind_evaluator F with
      | .error d => .error d
      | .ok l' =>
        match r.bind_evaluator F with
        | .error d => .error d
        | .ok r' => .ok (.NullIf l' r' ty)
  | .CaseWhen operand_expr expr_pairs else_expr ty =>
      match ScalarExpression.bind_evaluator_opt F operand_expr with
      | .error d => .error d
      | .ok operand' =>
        match ScalarExpression.bind_evaluator_pairs F expr_pairs with
        | .error d => .error d
        | .ok pairs' =>
          match ScalarExpression.bind_evaluator_opt F else_expr with
          | .error d => .error d
          | .ok else' => .ok (.CaseWhen operand' pairs' else' ty)

/-- `bind_evaluator` sequenced over an argument list; the first failing
element aborts the whole call with its error (`?` propagation). -/
def ScalarExpression.bind_evaluator_list (F : EvaluatorFactory) :
    List ScalarExpression → Except DatabaseError (List ScalarExpression)
  | [] => .ok []
  | e :: es =>
      match e.bind_evaluator F with
      | .error d => .error d
      | .ok e' =>
        match ScalarExpression.bind_evaluator_list F es with
        | .error d => .error d
        | .ok es' => .ok (e' :: es')

/-- `bind_evaluator` on an optional child. -/
def ScalarExpression.bind_evaluator_opt (F : EvaluatorFactory) :
    Option ScalarExpression → Except DatabaseError (Option ScalarExpression)
  | none => .ok none
  | some e =>
      match e.bind_evaluator F with
      | .error d => .error d
      | .ok e' => .ok (some e')

/-- `bind_evaluator` over the `(when, then)` pairs of a `CaseWhen`. -/
def ScalarExpression.bind_evaluator_pairs (F : EvaluatorFactory) :
    List (ScalarExpression × ScalarExpression) →
    Except DatabaseError (List (ScalarExpression × ScalarExpression))
  | [] => .ok []
  | (a, b) :: rest =>
      match a.bind_evaluator F with
      | .error d => .error d
      | .ok a' =>
        match b.bind_evaluator F with
        | .error d => .error d
        | .ok b' =>
          match ScalarExpression.bind_evaluator_pairs F rest with
          | .error d => .error d
          | .ok rest' => .ok ((a', b') :: rest')
end

/-- Rust's short-circuiting `||` under panic threading: the right side is
ignored whenever the left side already panicked (`none`) or decided the
disjunction (`some true`). -/
def orO : Option Bool → Option Bool → Option Bool
  | none, _ => none
  | some true, _ => some true
  | some false, b => b

theorem orO_none (b : Option Bool) : orO none b = none := rfl

theorem orO_some (a : Bool) (b : Option Bool) :
    orO (some a) b = if a then some true else b := by
  cases a <;> rfl

theorem orO_some_some (a b : Bool) :
    orO (some a) (some b) = some (a || b) := by
  cases a <;> cases b <;> rfl

mutual
/-- Mirrors `ScalarExpression::has_count_star` exactly as written: every
arm either recurses into children or returns `false`; no arm produces
`true`.  `none` models the `unreachable!` panics on `Empty` and
`TableFunction` (note that, unlike `has_agg_call`, this walker descends
into `Reference`). -/
def ScalarExpression.has_count_star : ScalarExpression → Option Bool
  | .Alias e _ => e.has_count_star
  | .TypeCast e _ => e.has_count_star
  | .IsNull _ e => e.has_count_star
  | .Unary _ e _ _ => e.has_count_star
  | .Binary _ l r _ _ => orO l.has_count_star r.has_count_star
  | .AggCall _ _ args _ => ScalarExpression.has_count_star_list args
  | .ScalaFunction args _ => ScalarExpression.has_count_star_list args
  | .Coalesce exprs _ => ScalarExpression.has_count_star_list exprs
  | .TableFunction _ _ => none
  | .Constant _ => some false
  | .ColumnRef _ => some false
  | .In _ e args =>
      orO e.has_count_star (ScalarExpression.has_count_star_list args)
  | .Between _ e l r =>
      orO e.has_count_star (orO l.has_count_star r.has_count_star)
  | .SubString e for_expr from_expr =>
      -- source order: expr, then from_expr, then for_expr
      orO e.has_count_star
        (orO (ScalarExpression.has_count_star_opt from_expr)
          (ScalarExpression.has_count_star_opt for_expr))
  | .Position e in_e => orO e.has_count_star in_e.has_count_star
  | .Trim e trim_what_expr _ =>
      orO e.has_count_star (ScalarExpression.has_count_star_opt trim_what_expr)
  | .Empty => none
  | .Reference e _ => e.has_count_star
  | .Tuple args => ScalarExpression.has_count_star_list args
  | .If c l r _ =>
      orO c.has_count_star (orO l.has_count_star r.has_count_star)
  | .IfNull l r _ => orO l.has_count_star r.has_count_star
  | .NullIf l r _ => orO l.has_count_star r.has_count_star
  | .CaseWhen operand_expr expr_pairs else_expr _ =>
      orO (ScalarExpression.has_count_star_opt operand_expr)
        (orO (ScalarExpression.has_count_star_pairs expr_pairs)
          (ScalarExpression.has_count_star_opt else_expr))

/-- The `args.iter().any(Self::has_count_star)` pattern. -/
def ScalarExpression.has_count_star_list : List ScalarExpression → Option Bool
  | [] => some false
  | e :: es => orO e.has_count_star (ScalarExpression.has_count_star_list es)

/-- The `matches!(opt.as_ref().map(...), Some(true))` pattern. -/
def ScalarExpression.has_count_star_opt : Option ScalarExpression → Option Bool
  | none => some false
  | some e => e.has_count_star

/-- The `expr_pairs.iter().any(...)` pattern of the `CaseWhen` arm. -/
def ScalarExpression.has_count_star_pairs :
    List (ScalarExpression × ScalarExpression) → Option Bool
  | [] => some false
  | (a, b) :: rest =>
      orO a.has_count_star
        (orO b.has_count_star (ScalarExpression.has_count_star_pairs rest))
end

mutual
/-- Mirrors `ScalarExpression::has_agg_call`: `AggCall` is `true` without
descending into its arguments; `none` models the `unreachable!` panics on
`Reference`, `Empty` and `TableFunction`. -/
def ScalarExpression.has_agg_call : ScalarExpression → Option Bool
  | .AggCall _ _ _ _ => some true
  | .Constant _ => some false
  | .ColumnRef _ => some false
  | .Alias e _ => e.has_agg_call
  | .TypeCast e _ => e.has_agg_call
  | .IsNull _ e => e.has_agg_call
  | .Unary _ e _ _ => e.has_agg_call
  | .Binary _ l r _ _ => orO l.has_agg_call r.has_agg_call
  | .In _ e args =>
      orO e.has_agg_call (ScalarExpression.has_agg_call_list args)
  | .Between _ e l r =>
      orO e.has_agg_call (orO l.has_agg_call r.has_agg_call)
  | .SubString e for_expr from_expr =>
      -- source order: expr, then for_expr, then from_expr
      orO e.has_agg_call
        (orO (ScalarExpression.has_agg_call_opt for_expr)
          (ScalarExpression.has_agg_call_opt from_expr))
  | .Position e in_e => orO e.has_agg_call in_e.has_agg_call
  | .Trim e trim_what_expr _ =>
      orO e.has_agg_call (ScalarExpression.has_agg_call_opt trim_what_expr)
  | .Reference _ _ => none
  | .Empty => none
  | .TableFunction _ _ => none
  | .Tuple args => ScalarExpression.has_agg_call_list args
  | .ScalaFunction args _ => ScalarExpression.has_agg_call_list args
  | .Coalesce exprs _ => ScalarExpression.has_agg_call_list exprs
  | .If c l r _ =>
      orO c.has_agg_call (orO l.has_agg_call r.has_agg_call)
  | .IfNull l r _ => orO l.has_agg_call r.has_agg_call
  | .NullIf l r _ => orO l.has_agg_call r.has_agg_call
  | .CaseWhen operand_expr expr_pairs else_expr _ =>
      orO (ScalarExpression.has_agg_call_opt operand_expr)
        (orO (ScalarExpression.has_agg_call_pairs expr_pairs)
          (ScalarExpression.has_agg_call_opt else_expr))

/-- The `iter().any(...)` pattern of `has_agg_call`. -/
def ScalarExpression.has_agg_call_list : List ScalarExpression → Option Bool
  | [] => some false
  | e :: es => orO e.has_agg_call (ScalarExpression.has_agg_call_list es)

/-- The optional-child pattern of `has_agg_call`. -/
def ScalarExpression.has_agg_call_opt : Option ScalarExpression → Option Bool
  | none => some false
  | some e => e.has_agg_call

/-- The `(when, then)` pairs pattern of `has_agg_call`. -/
def ScalarExpression.has_agg_call_pairs :
    List (ScalarExpression × ScalarExpression) → Option Bool
  | [] => some false
  | (a, b) :: rest =>
      orO a.has_agg_call
        (orO b.has_agg_call (ScalarExpression.has_agg_call_pairs rest))
end

/-- The unconditional head of `columns_collect`: when `only_column_ref` is
false every visited node first contributes its own synthetic output
column ("it itself is also a special Column"); a panic inside
`output_column` is `none`. -/
def ScalarExpression.collect_self_column (only_column_ref : Bool)
    (e : ScalarExpression) : Option (List ColumnCatalog) :=
  if only_column_ref then some []
  else
    match e.output_column with
    | none => none
    | some c => some [c]

/-- Panic-threading sequencing of two collected column lists: the Rust
code pushes into one shared `vec`, and a panic anywhere aborts the whole
collection. -/
def opt_append (x y : Option (List ColumnCatalog)) :
    Option (List ColumnCatalog) :=
  match x with
  | none => none
  | some xs =>
    match y with
    | none => none
    | some ys => some (xs ++ ys)

theorem opt_append_none_right (x : Option (List ColumnCatalog)) :
    opt_append x none = none := by
  cases x <;> rfl

theorem opt_append_none_left (y : Option (List ColumnCatalog)) :
    opt_append none y = none := rfl

mutual
/-- Mirrors the inner `columns_collect` of
`ScalarExpression::referenced_columns`: a pre-order collection of every
`ColumnRef`, with the extra synthetic column per node when
`only_column_ref` is false.  Each arm first contributes
`collect_self_column` and then the children in source order; `none`
models the `unreachable!` panic on `Reference` and `Empty` (and panics
inside `output_column`); the shared `vec` is modelled by appending each
node's contribution in order. -/
def ScalarExpression.columns_collect (b : Bool) :
    ScalarExpression → Option (List ColumnCatalog)
  | t@(.ColumnRef col) =>
      opt_append (ScalarExpression.collect_self_column b t) (some [col])
  | t@(.Alias ex _) =>
      opt_append (ScalarExpression.collect_self_column b t)
        (ScalarExpression.columns_collect b ex)
  | t@(.TypeCast ex _) =>
      opt_append (ScalarExpression.collect_self_column b t)
        (ScalarExpression.columns_collect b ex)
  | t@(.IsNull _ ex) =>
      opt_append (ScalarExpression.collect_self_column b t)
        (ScalarExpression.columns_collect b ex)
  | t@(.Unary _ ex _ _) =>
      opt_append (ScalarExpression.collect_self_column b t)
        (ScalarExpression.columns_collect b ex)
  | t@(.Binary _ l r _ _) =>
      opt_append (ScalarExpression.collect_self_column b t)
        (opt_append (ScalarExpression.columns_collect b l)
          (ScalarExpression.columns_collect b r))
  | t@(.AggCall _ _ args _) =>
      opt_append (ScalarExpression.collect_self_column b t)
        (ScalarExpression.columns_collect_list b args)
  | t@(.ScalaFunction args _) =>
      opt_append (ScalarExpression.collect_self_column b t)
        (ScalarExpression.columns_collect_list b args)
  | t@(.TableFunction args _) =>
      opt_append (ScalarExpression.collect_self_column b t)
        (ScalarExpression.columns_collect_list b args)
  | t@(.Tuple args) =>
      opt_append (ScalarExpression.collect_self_column b t)
        (ScalarExpression.columns_collect_list b args)
  | t@(.Coalesce exprs _) =>
      opt_append (ScalarExpression.collect_self_column b t)
        (ScalarExpression.columns_collect_list b exprs)
  | t@(.In _ ex args) =>
      opt_append (ScalarExpression.collect_self_column b t)
        (opt_append (ScalarExpression.columns_collect b ex)
          (ScalarExpression.columns_collect_list b args))
  | t@(.Between _ ex l r) =>
      opt_append (ScalarExpression.collect_self_column b t)
        (opt_append (ScalarExpression.columns_collect b ex)
          (opt_append (ScalarExpression.columns_collect b l)
            (ScalarExpression.columns_collect b r)))
  | t@(.SubString ex for_expr from_expr) =>
      opt_append (ScalarExpression.collect_self_column b t)
        (opt_append (ScalarExpression.columns_collect b ex)
          (opt_append (ScalarExpression.columns_collect_opt b for_expr)
            (ScalarExpression.columns_collect_opt b from_expr)))
  | t@(.Position ex in_e) =>
      opt_append (ScalarExpression.collect_self_column b t)
        (opt_append (ScalarExpression.columns_collect b ex)
          (ScalarExpression.columns_collect b in_e))
  | t@(.Trim ex trim_what_expr _) =>
      opt_append (ScalarExpression.collect_self_column b t)
        (opt_append (ScalarExpression.columns_collect b ex)
          (ScalarExpression.columns_collect_opt b trim_what_expr))
  | t@(.Constant _) =>
      opt_append (ScalarExpression.collect_self_column b t) (some [])
  | t@(.Reference _ _) =>
      opt_append (ScalarExpression.collect_self_column b t) none
  | t@(.Empty) =>
      opt_append (ScalarExpression.collect_self_column b t) none
  | t@(.If c l r _) =>
      opt_append (ScalarExpression.collect_self_column b t)
        (opt_append (ScalarExpression.columns_collect b c)
          (opt_append (ScalarExpression.columns_collect b l)
            (ScalarExpression.columns_collect b r)))
  | t@(.IfNull l r _) =>
      opt_append (ScalarExpression.collect_self_column b t)
        (opt_append (ScalarExpression.columns_collect b l)
          (ScalarExpression.columns_collect b r))
  | t@(.NullIf l r _) =>
      opt_append (ScalarExpression.collect_self_column b t)
        (opt_append (ScalarExpression.columns_collect b l)
          (ScalarExpression.columns_collect b r))
  | t@(.CaseWhen operand_expr expr_pairs else_expr _) =>
      opt_append (ScalarExpression.collect_self_column b t)
        (opt_append (ScalarExpression.columns_collect_opt b operand_expr)
          (opt_append (ScalarExpression.columns_collect_pairs b expr_pairs)
            (ScalarExpression.columns_collect_opt b else_expr)))

/-- `columns_collect` over an argument list. -/
def ScalarExpression.columns_collect_list (b : Bool) :
    List ScalarExpression → Option (List ColumnCatalog)
  | [] => some []
  | e :: es =>
      opt_append (ScalarExpression.columns_collect b e)
        (ScalarExpression.columns_collect_list b es)

/-- `columns_collect` on an optional child. -/
def ScalarExpression.columns_collect_opt (b : Bool) :
    Option ScalarExpression → Option (List ColumnCatalog)
  | none => some []
  | some e => ScalarExpression.columns_collect b e

/-- `columns_collect` over the `(when, then)` pairs of a `CaseWhen`. -/
def ScalarExpression.columns_collect_pairs (b : Bool) :
    List (ScalarExpression × ScalarExpression) → Option (List ColumnCatalog)
  | [] => some []
  | (x, y) :: rest =>
      opt_append (ScalarExpression.columns_collect b x)
        (opt_append (ScalarExpression.columns_collect b y)
          (ScalarExpression.columns_collect_pairs b rest))
end

/-- Mirrors `ScalarExpression::referenced_columns(only_column_ref)`. -/
def ScalarExpression.referenced_columns (e : ScalarExpression)
    (only_column_ref : Bool) : Option (List ColumnCatalog) :=
  ScalarExpression.columns_collect only_column_ref e

mutual
/-- Structural containment following the spec's words: does any node of
the tree (descending through every expression-valued field, including the
expression of an expression-alias, the retained expression of a
`Reference` and the arguments of a `TableFunction`) satisfy `p`? -/
def ScalarExpression.exists_node (p : ScalarExpression → Bool) :
    ScalarExpression → Bool
  | e@(.Constant _) => p e
  | e@(.ColumnRef _) => p e
  | e@(.Empty) => p e
  | e@(.Alias ex a) =>
      p e || ScalarExpression.exists_node p ex
        || ScalarExpression.exists_node_alias p a
  | e@(.TypeCast ex _) => p e || ScalarExpression.exists_node p ex
  | e@(.IsNull _ ex) => p e || ScalarExpression.exists_node p ex
  | e@(.Unary _ ex _ _) => p e || ScalarExpression.exists_node p ex
  | e@(.Binary _ l r _ _) =>
      p e || ScalarExpression.exists_node p l || ScalarExpression.exists_node p r
  | e@(.AggCall _ _ args _) => p e || ScalarExpression.exists_node_list p args
  | e@(.In _ ex args) =>
      p e || ScalarExpression.exists_node p ex
        || ScalarExpression.exists_node_list p args
  | e@(.Between _ ex l r) =>
      p e || ScalarExpression.exists_node p ex
        || ScalarExpression.exists_node p l || ScalarExpression.exists_node p r
  | e@(.SubString ex for_expr from_expr) =>
      p e || ScalarExpression.exists_node p ex
        || ScalarExpression.exists_node_opt p for_expr
        || ScalarExpression.exists_node_opt p from_expr
  | e@(.Position ex in_e) =>
      p e || ScalarExpression.exists_node p ex
        || ScalarExpression.exists_node p in_e
  | e@(.Trim ex trim_what_expr _) =>
      p e || ScalarExpression.exists_node p ex
        || ScalarExpression.exists_node_opt p trim_what_expr
  | e@(.Reference ex _) => p e || ScalarExpression.exists_node p ex
  | e@(.Tuple args) => p e || ScalarExpression.exists_node_list p args
  | e@(.ScalaFunction args _) => p e || ScalarExpression.exists_node_list p args
  | e@(.TableFunction args _) => p e || ScalarExpression.exists_node_list p args
  | e@(.If c l r _) =>
      p e || ScalarExpression.exists_node p c
        || ScalarExpression.exists_node p l || ScalarExpression.exists_node p r
  | e@(.IfNull l r _) =>
      p e || ScalarExpression.exists_node p l || ScalarExpression.exists_node p r
  | e@(.NullIf l r _) =>
      p e || ScalarExpression.exists_node p l || ScalarExpression.exists_node p r
  | e@(.Coalesce exprs _) => p e || ScalarExpression.exists_node_list p exprs
  | e@(.CaseWhen operand_expr expr_pairs else_expr _) =>
      p e || ScalarExpression.exists_node_opt p operand_expr
        || ScalarExpression.exists_node_pairs p expr_pairs
        || ScalarExpression.exists_node_opt p else_expr

/-- Structural containment inside an `AliasType`. -/
def ScalarExpression.exists_node_alias (p : ScalarExpression → Bool) :
    AliasType → Bool
  | .Name _ => false
  | .Expr e => ScalarExpression.exists_node p e

/-- Structural containment over a list of children. -/
def ScalarExpression.exists_node_list (p : ScalarExpression → Bool) :
    List ScalarExpression → Bool
  | [] => false
  | e :: es =>
      ScalarExpression.exists_node p e || ScalarExpression.exists_node_list p es

/-- Structural containment in an optional child. -/
def ScalarExpression.exists_node_opt (p : ScalarExpression → Bool) :
    Option ScalarExpression → Bool
  | none => false
  | some e => ScalarExpression.exists_node p e

/-- Structural containment over `(when, then)` pairs. -/
def ScalarExpression.exists_node_pairs (p : ScalarExpression → Bool) :
    List (ScalarExpression × ScalarExpression) → Bool
  | [] => false
  | (a, b) :: rest =>
      ScalarExpression.exists_node p a || ScalarExpression.exists_node p b
        || ScalarExpression.exists_node_pairs p rest
end

/-- Is the root an `AggCall` node? -/
def ScalarExpression.is_agg_call_node : ScalarExpression → Bool
  | .AggCall _ _ _ _ => true
  | _ => false

/-- Is the root a `Reference` node? -/
def ScalarExpression.is_reference_node : ScalarExpression → Bool
  | .Reference _ _ => true
  | _ => false

/-- Is the root an `Empty` or `TableFunction` node (the two variants on
which `return_type`, `has_agg_call` and `has_count_star` panic)? -/
def ScalarExpression.is_empty_or_table_function_node : ScalarExpression → Bool
  | .Empty => true
  | .TableFunction _ _ => true
  | _ => false

/-- Is the root an `Alias` carrying an expression alias? -/
def ScalarExpression.is_expr_alias_node : ScalarExpression → Bool
  | .Alias _ (.Expr _) => true
  | _ => false

/-- Is the root an `Alias` node (of either alias kind)? -/
def ScalarExpression.is_alias_node : ScalarExpression → Bool
  | .Alias _ _ => true
  | _ => false

/-- Spec-side definition (refinement counterpart of `has_agg_call`),
following the spec's words: "the tree contains any `AggCall` node". -/
def ScalarExpression.contains_agg_call (e : ScalarExpression) : Bool :=
  ScalarExpression.exists_node ScalarExpression.is_agg_call_node e

/-- The tree contains a `Reference` node (structurally, anywhere). -/
def ScalarExpression.contains_reference (e : ScalarExpression) : Bool :=
  ScalarExpression.exists_node ScalarExpression.is_reference_node e

/-- The tree is free of `Empty` and `TableFunction` nodes. -/
def ScalarExpression.no_empty_or_table_function (e : ScalarExpression) : Bool :=
  !(ScalarExpression.exists_node ScalarExpression.is_empty_or_table_function_node e)

/-- The tree contains no expression-alias (`AliasType::Expr`) anywhere. -/
def ScalarExpression.no_expr_alias (e : ScalarExpression) : Bool :=
  !(ScalarExpression.exists_node ScalarExpression.is_expr_alias_node e)

mutual
/-- Containment of a `Reference` node restricted to the positions that
`columns_collect` actually visits: every expression-valued field except
the expression payload of an `Alias`'s expression-alias, which the
`Alias` arm of `columns_collect` skips. -/
def ScalarExpression.contains_ref_collect : ScalarExpression → Bool
  | .Reference _ _ => true
  | .Empty => false
  | .Constant _ => false
  | .ColumnRef _ => false
  | .Alias ex _ => ScalarExpression.contains_ref_collect ex
  | .TypeCast ex _ => ScalarExpression.contains_ref_collect ex
  | .IsNull _ ex => ScalarExpression.contains_ref_collect ex
  | .Unary _ ex _ _ => ScalarExpression.contains_ref_collect ex
  | .Binary _ l r _ _ =>
      ScalarExpression.contains_ref_collect l
        || ScalarExpression.contains_ref_collect r
  | .AggCall _ _ args _ => ScalarExpression.contains_ref_collect_list args
  | .In _ ex args =>
      ScalarExpression.contains_ref_collect ex
        || ScalarExpression.contains_ref_collect_list args
  | .Between _ ex l r =>
      ScalarExpression.contains_ref_collect ex
        || ScalarExpression.contains_ref_collect l
        || ScalarExpression.contains_ref_collect r
  | .SubString ex for_expr from_expr =>
      ScalarExpression.contains_ref_collect ex
        || ScalarExpression.contains_ref_collect_opt for_expr
        || ScalarExpression.contains_ref_collect_opt from_expr
  | .Position ex in_e =>
      ScalarExpression.contains_ref_collect ex
        || ScalarExpression.contains_ref_collect in_e
  | .Trim ex trim_what_expr _ =>
      ScalarExpression.contains_ref_collect ex
        || ScalarExpression.contains_ref_collect_opt trim_what_expr
  | .Tuple args => ScalarExpression.contains_ref_collect_list args
  | .ScalaFunction args _ => ScalarExpression.contains_ref_collect_list args
  | .TableFunction args _ => ScalarExpression.contains_ref_collect_list args
  | .If c l r _ =>
      ScalarExpression.contains_ref_collect c
        || ScalarExpression.contains_ref_collect l
        || ScalarExpression.contains_ref_collect r
  | .IfNull l r _ =>
      ScalarExpression.contains_ref_collect l
        || ScalarExpression.contains_ref_collect r
  | .NullIf l r _ =>
      ScalarExpression.contains_ref_collect l
        || ScalarExpression.contains_ref_collect r
  | .Coalesce exprs _ => ScalarExpression.contains_ref_collect_list exprs
  | .CaseWhen operand_expr expr_pairs else_expr _ =>
      ScalarExpression.contains_ref_collect_opt operand_expr
        || ScalarExpression.contains_ref_collect_pairs expr_pairs
        || ScalarExpression.contains_ref_collect_opt else_expr

/-- List helper of `contains_ref_collect`. -/
def ScalarExpression.contains_ref_collect_list : List ScalarExpression → Bool
  | [] => false
  | e :: es =>
      ScalarExpression.contains_ref_collect e
        || ScalarExpression.contains_ref_collect_list es

/-- Optional-child helper of `contains_ref_collect`. -/
def ScalarExpression.contains_ref_collect_opt : Option ScalarExpression → Bool
  | none => false
  | some e => ScalarExpression.contains_ref_collect e

/-- Pairs helper of `contains_ref_collect`. -/
def ScalarExpression.contains_ref_collect_pairs :
    List (ScalarExpression × ScalarExpression) → Bool
  | [] => false
  | (a, b) :: rest =>
      ScalarExpression.contains_ref_collect a
        || ScalarExpression.contains_ref_collect b
        || ScalarExpression.contains_ref_collect_pairs rest
end

/-- The per-node check behind the post-binding binary invariant: at a
`Binary` node both operands must have the same (defined) return type `t`
and the attached evaluator must be exactly the factory's evaluator for
`(t, op)`; every other variant passes trivially. -/
def ScalarExpression.binary_ok (F : EvaluatorFactory) : ScalarExpression → Bool
  | .Binary op l r evaluator _ =>
      match l.return_type, r.return_type with
      | some tl, some tr =>
          decide (tl = tr)
            && (match evaluator with
                | some box => decide (F.binary_create tl op = some box)
                | none => false)
      | _, _ => false
  | _ => true

mutual
/-- Does `p` hold at every node that `bind_evaluator` visits?  The binder
does not descend into the retained expression of a `Reference` nor the
expression payload of an expression-alias, and its `Empty` arm never
returns `Ok`, so those positions are vacuously accepted. -/
def ScalarExpression.forall_visited_bind (p : ScalarExpression → Bool) :
    ScalarExpression → Bool
  | e@(.Constant _) => p e
  | e@(.ColumnRef _) => p e
  | e@(.Empty) => p e
  | e@(.Reference _ _) => p e
  | e@(.Alias ex _) => p e && ScalarExpression.forall_visited_bind p ex
  | e@(.TypeCast ex _) => p e && ScalarExpression.forall_visited_bind p ex
  | e@(.IsNull _ ex) => p e && ScalarExpression.forall_visited_bind p ex
  | e@(.Unary _ ex _ _) => p e && ScalarExpression.forall_visited_bind p ex
  | e@(.Binary _ l r _ _) =>
      p e && ScalarExpression.forall_visited_bind p l
        && ScalarExpression.forall_visited_bind p r
  | e@(.AggCall _ _ args _) =>
      p e && ScalarExpression.forall_visited_bind_list p args
  | e@(.In _ ex args) =>
      p e && ScalarExpression.forall_visited_bind p ex
        && ScalarExpression.forall_visited_bind_list p args
  | e@(.Between _ ex l r) =>
      p e && ScalarExpression.forall_visited_bind p ex
        && ScalarExpression.forall_visited_bind p l
        && ScalarExpression.forall_visited_bind p r
  | e@(.SubString ex for_expr from_expr) =>
      p e && ScalarExpression.forall_visited_bind p ex
        && ScalarExpression.forall_visited_bind_opt p for_expr
        && ScalarExpression.forall_visited_bind_opt p from_expr
  | e@(.Position ex in_e) =>
      p e && ScalarExpression.forall_visited_bind p ex
        && ScalarExpression.forall_visited_bind p in_e
  | e@(.Trim ex trim_what_expr _) =>
      p e && ScalarExpression.forall_visited_bind p ex
        && ScalarExpression.forall_visited_bind_opt p trim_what_expr
  | e@(.Tuple args) =>
      p e && ScalarExpression.forall_visited_bind_list p args
  | e@(.ScalaFunction args _) =>
      p e && ScalarExpression.forall_visited_bind_list p args
  | e@(.TableFunction args _) =>
      p e && ScalarExpression.forall_visited_bind_list p args
  | e@(.If c l r _) =>
      p e && ScalarExpression.forall_visited_bind p c
        && ScalarExpression.forall_visited_bind p l
        && ScalarExpression.forall_visited_bind p r
  | e@(.IfNull l r _) =>
      p e && ScalarExpression.forall_visited_bind p l
        && ScalarExpression.forall_visited_bind p r
  | e@(.NullIf l r _) =>
      p e && ScalarExpression.forall_visited_bind p l
        && ScalarExpression.forall_visited_bind p r
  | e@(.Coalesce exprs _) =>
      p e && ScalarExpression.forall_visited_bind_list p exprs
  | e@(.CaseWhen operand_expr expr_pairs else_expr _) =>
      p e && ScalarExpression.forall_visited_bind_opt p operand_expr
        && ScalarExpression.forall_visited_bind_pairs p expr_pairs
        && ScalarExpression.forall_visited_bind_opt p else_expr

/-- List helper of `forall_visited_bind`. -/
def ScalarExpression.forall_visited_bind_list (p : ScalarExpression → Bool) :
    List ScalarExpression → Bool
  | [] => true
  | e :: es =>
      ScalarExpression.forall_visited_bind p e
        && ScalarExpression.forall_visited_bind_list p es

/-- Optional-child helper of `forall_visited_bind`. -/
def ScalarExpression.forall_visited_bind_opt (p : ScalarExpression → Bool) :
    Option ScalarExpression → Bool
  | none => true
  | some e => ScalarExpression.forall_visited_bind p e

/-- Pairs helper of `forall_visited_bind`. -/
def ScalarExpression.forall_visited_bind_pairs (p : ScalarExpression → Bool) :
    List (ScalarExpression × ScalarExpression) → Bool
  | [] => true
  | (a, b) :: rest =>
      ScalarExpression.forall_visited_bind p a
        && ScalarExpression.forall_visited_bind p b
        && ScalarExpression.forall_visited_bind_pairs p rest
end

/-- The binary post-binding invariant at every node the binder visits. -/
def ScalarExpression.binary_bound_visited (F : EvaluatorFactory)
    (e : ScalarExpression) : Bool :=
  ScalarExpression.forall_visited_bind (ScalarExpression.binary_ok F) e

/-- The binary post-binding invariant at every structural node of the
tree (the literal reading of "every Binary node in a tree"), including
nodes inside `Reference` expressions and expression-alias payloads. -/
def ScalarExpression.binary_bound_all (F : EvaluatorFactory)
    (e : ScalarExpression) : Bool :=
  !(ScalarExpression.exists_node (fun x => !(ScalarExpression.binary_ok F x)) e)

/-- Catalog column `a : Integer` (id 0). -/
def colA_int : ColumnCatalog :=
  ⟨⟨none, some 0, "a"⟩, false, ColumnDesc.new .Integer false false none⟩

/-- Catalog column `b : Bigint` (id 1). -/
def colB_big : ColumnCatalog :=
  ⟨⟨none, some 1, "b"⟩, false, ColumnDesc.new .Bigint false false none⟩

/-- Catalog column `a : UInteger` (id 0). -/
def colA_uint : ColumnCatalog :=
  ⟨⟨none, some 0, "a"⟩, false, ColumnDesc.new .UInteger false false none⟩

/-- Catalog column `c : Boolean` (id 2). -/
def colC_bool : ColumnCatalog :=
  ⟨⟨none, some 2, "c"⟩, false, ColumnDesc.new .Boolean false false none⟩

/-- The literal `1 : Integer`. -/
def valOne : Value := ⟨.Integer, "1"⟩

/-- The `*` argument of `Count(*)` (a literal rendered as `*`). -/
def valStar : Value := ⟨.Varchar none .Characters, "*"⟩

/-- Claim C2 (code bug): binding `Unary { Minus, ColumnRef(a: UInteger),
ty: Integer, evaluator: absent }` does wrap the operand in
`TypeCast { ty: Integer }`, but attaches the evaluator obtained for the
PRE-CAST unsigned type `UInteger`, not for the signed type `Integer`
claimed by the spec's scenario: the source reads `ty` before inserting
the cast and passes that `ty` to `unary_create`. -/
theorem c2_unsigned_unary_evaluator_uses_unsigned_type :
    ScalarExpression.bind_evaluator specFactory
      (.Unary .Minus (.ColumnRef colA_uint) none .Integer)
    = .ok (.Unary .Minus (.TypeCast (.ColumnRef colA_uint) .Integer)
        (some ⟨.UInteger, .Minus⟩) .Integer) := rfl

/-- Claim C4 (code bug): `bind_evaluator` is not idempotent.  Binding the
unsigned-unary example once attaches `unary(UInteger, Minus)`; binding
the result again sees the inserted cast's signed type and re-derives
`unary(Integer, Minus)`, producing a structurally different tree. -/
theorem c4_bind_evaluator_not_idempotent :
    ScalarExpression.bind_evaluator specFactory
      (.Unary .Minus (.ColumnRef colA_uint) none .Integer)
    = .ok (.Unary .Minus (.TypeCast (.ColumnRef colA_uint) .Integer)
        (some ⟨.UInteger, .Minus⟩) .Integer)
    ∧ ScalarExpression.bind_evaluator specFactory
        (.Unary .Minus (.TypeCast (.ColumnRef colA_uint) .Integer)
          (some ⟨.UInteger, .Minus⟩) .Integer)
      = .ok (.Unary .Minus (.TypeCast (.ColumnRef colA_uint) .Integer)
          (some ⟨.Integer, .Minus⟩) .Integer)
    ∧ (ScalarExpression.Unary .Minus
          (.TypeCast (.ColumnRef colA_uint) .Integer)
          (some ⟨.UInteger, .Minus⟩) .Integer)
        ≠ (ScalarExpression.Unary .Minus
            (.TypeCast (.ColumnRef colA_uint) .Integer)
            (some ⟨.Integer, .Minus⟩) .Integer) := by
  refine ⟨rfl, rfl, ?_⟩
  intro h
  simp only [ScalarExpression.Unary.injEq, Option.some.injEq,
    UnaryEvaluatorBox.mk.injEq] at h
  exact absurd h.2.2.1.1 (by decide)

/-- Claim C5 (code bug): `has_count_star` returns `false` on the claimed
`Count(*)` example — no arm of the source function ever returns `true`,
so the tree `Binary { Eq, AggCall { Count, args: [Constant(*)] },
Constant(1) }` is reported as containing no `Count(*)`. -/
theorem c5_has_count_star_is_false_on_count_star :
    ScalarExpression.has_count_star
      (.Binary .Eq (.AggCall false .Count [.Constant valStar] .Integer)
        (.Constant valOne) none .Boolean)
    = some false := rfl

/-- Claim C1 counterexample: a tree on which `bind_evaluator` succeeds
can still contain a `Binary` node violating the claimed invariant —
`bind_evaluator` does not descend into the retained expression of a
`Reference`, so `Reference { Binary { Plus, a: Integer, b: Bigint,
evaluator: absent } }` is returned unchanged with mismatched operand
types and no evaluator. -/
theorem c1_counterexample_reference_shields_binary :
    ScalarExpression.bind_evaluator specFactory
      (.Reference (.Binary .Plus (.ColumnRef colA_int) (.ColumnRef colB_big)
        none .Bigint) 0)
    = .ok (.Reference (.Binary .Plus (.ColumnRef colA_int) (.ColumnRef colB_big)
        none .Bigint) 0)
    ∧ ScalarExpression.binary_bound_all specFactory
        (.Reference (.Binary .Plus (.ColumnRef colA_int) (.ColumnRef colB_big)
          none .Bigint) 0)
      = false :=
  ⟨rfl, rfl⟩

/-- Claim C6 counterexample: a pre-existing `Reference` whose
output-column summary matches the output list is NOT left intact — the
summary match runs before the terminal arms, so the old `Reference` is
re-wrapped in a fresh `Reference { pos: 0 }`. -/
theorem c6_counterexample_reference_rewrapped :
    ScalarExpression.try_reference (.Reference (.ColumnRef colA_int) 5)
      [.ColumnRef colA_int]
    = some (.Reference (.Reference (.ColumnRef colA_int) 5) 0)
    ∧ (ScalarExpression.Reference (.Reference (.ColumnRef colA_int) 5) 0)
      ≠ (ScalarExpression.Reference (.ColumnRef colA_int) 5) := by
  constructor
  · simp [ScalarExpression.try_reference, ScalarExpression.find_match_pos,
      ScalarExpression.output_column, colA_int]
  · intro h
    simp only [ScalarExpression.Reference.injEq] at h
    exact absurd h.2 (by decide)

/-- Claim C7 counterexample: `Reference { ColumnRef(a), pos: 0 }` is free
of `Empty` and `TableFunction` and contains no `AggCall`, yet
`has_agg_call` does not return a boolean at all — its `Reference` arm is
`unreachable!` (modelled as `none`), contradicting the claim that the
walker descends uniformly through `Reference` nodes. -/
theorem c7_counterexample_reference_panics :
    ScalarExpression.no_empty_or_table_function
      (.Reference (.ColumnRef colA_int) 0) = true
    ∧ ScalarExpression.contains_agg_call
        (.Reference (.ColumnRef colA_int) 0) = false
    ∧ ScalarExpression.has_agg_call (.Reference (.ColumnRef colA_int) 0) = none :=
  ⟨rfl, rfl, rfl⟩

/-- Claim C8 counterexample: `Alias { ColumnRef(a), Name("x") }` contains
no expression-alias, yet `output_name` before unpacking is `"x"` and after
unpacking is `"a"` — stripping a naming alias changes the output name. -/
theorem c8_counterexample_name_alias_changes_output_name :
    ScalarExpression.no_expr_alias (.Alias (.ColumnRef colA_int) (.Name "x"))
      = true
    ∧ ScalarExpression.output_name
        (ScalarExpression.unpack_alias (.Alias (.ColumnRef colA_int) (.Name "x")))
      = some "a"
    ∧ ScalarExpression.output_name (.Alias (.ColumnRef colA_int) (.Name "x"))
      = some "x"
    ∧ (some "a" : Option String) ≠ some "x" :=
  ⟨rfl, rfl, rfl, by decide⟩

/-- Claim C10 counterexample: a tree containing a `Reference` node on
which `referenced_columns` nevertheless returns a result for both flag
values — the `Alias` arm of `columns_collect` never descends into the
expression payload of an expression-alias, so a `Reference` hidden there
is never reached. -/
theorem c10_counterexample_reference_in_alias_payload :
    ScalarExpression.contains_reference
      (.Alias (.ColumnRef colA_int)
        (.Expr (.Reference (.ColumnRef colA_int) 0))) = true
    ∧ ScalarExpression.referenced_columns
        (.Alias (.ColumnRef colA_int)
          (.Expr (.Reference (.ColumnRef colA_int) 0))) true
      = some [colA_int]
    ∧ (ScalarExpression.referenced_columns
        (.Alias (.ColumnRef colA_int)
          (.Expr (.Reference (.ColumnRef colA_int) 0))) false).isSome = true :=
  ⟨rfl, rfl, rfl⟩

/-- If every entry of `O` strictly before index `i` has a defined output
column whose summary differs from `s`, and the entry at `i` has a defined
output column whose summary equals `s`, then the scan stops exactly at
`i`. -/
theorem find_match_pos_first_match (s : ColumnSummary) :
    ∀ (O : List ScalarExpression) (i : Nat),
    (∀ j, j < i → ∃ ej cj, O[j]? = some ej ∧ ej.output_column = some cj ∧
      cj.summary ≠ s) →
    (∃ ei ci, O[i]? = some ei ∧ ei.output_column = some ci ∧
      ci.summary = s) →
    ScalarExpression.find_match_pos s O = some (some i) := by
  intro O
  induction O with
  | nil =>
      intro i _ hat
      obtain ⟨ei, _, hget, _⟩ := hat
      simp at hget
  | cons e es ih =>
      intro i hbefore hat
      cases i with
      | zero =>
          obtain ⟨ei, ci, hget, hcol, hsum⟩ := hat
          simp only [List.getElem?_cons_zero, Option.some.injEq] at hget
          subst hget
          simp [ScalarExpression.find_match_pos, hcol, hsum]
      | succ i =>
          obtain ⟨e0, c0, hget0, hcol0, hsum0⟩ := hbefore 0 (Nat.succ_pos i)
          simp only [List.getElem?_cons_zero, Option.some.injEq] at hget0
          subst hget0
          have hrec := ih i
            (fun j hj => by
              obtain ⟨ej, cj, hg, hc, hs⟩ := hbefore (j + 1)
                (Nat.succ_lt_succ hj)
              exact ⟨ej, cj, by simpa using hg, hc, hs⟩)
            (by
              obtain ⟨ei, ci, hg, hc, hs⟩ := hat
              exact ⟨ei, ci, by simpa using hg, hc, hs⟩)
          simp [ScalarExpression.find_match_pos, hcol0, hsum0, hrec]

/-- Claim C3 (confirmed): if the output-column summary of `self` equals
that of `output_exprs[i]`, and `i` is the first such index (all earlier
entries have defined, non-matching output columns), then `try_reference`
replaces the root by `Reference { expr: the original `self`, pos: i }`
and rewrites nothing below it. -/
theorem c3_try_reference_first_match_wins
    (self : ScalarExpression) (output_exprs : List ScalarExpression)
    (i : Nat) (c : ColumnCatalog)
    (hc : self.output_column = some c)
    (hbefore : ∀ j, j < i → ∃ ej cj, output_exprs[j]? = some ej ∧
      ej.output_column = some cj ∧ cj.summary ≠ c.summary)
    (hat : ∃ ei ci, output_exprs[i]? = some ei ∧
      ei.output_column = some ci ∧ ci.summary = c.summary) :
    self.try_reference output_exprs = some (.Reference self i) := by
  have hfind := find_match_pos_first_match c.summary output_exprs i hbefore hat
  cases self <;> simp only [ScalarExpression.try_reference, hc, hfind]

/-- Witness for C3: the spec's reference-rewrite scenario.  With
`self = Binary { Plus, a, Constant(1) }` (output name `"(a + 1)"`) and
`O = [Binary { Plus, a, Constant(1) }, ColumnRef(b)]`, the rewrite yields
`Reference { expr: original, pos: 0 }`. -/
theorem c3_witness :
    ScalarExpression.try_reference
      (.Binary .Plus (.ColumnRef colA_int) (.Constant valOne) none .Integer)
      [.Binary .Plus (.ColumnRef colA_int) (.Constant valOne) none .Integer,
        .ColumnRef colB_big]
    = some (.Reference
        (.Binary .Plus (.ColumnRef colA_int) (.Constant valOne) none .Integer)
        0) :=
  c3_try_reference_first_match_wins
    (.Binary .Plus (.ColumnRef colA_int) (.Constant valOne) none .Integer)
    [.Binary .Plus (.ColumnRef colA_int) (.Constant valOne) none .Integer,
      .ColumnRef colB_big]
    0
    (ColumnCatalog.new "(a + 1)" true (ColumnDesc.new .Integer false false none))
    rfl
    (fun j hj => absurd hj (Nat.not_lt_zero j))
    ⟨.Binary .Plus (.ColumnRef colA_int) (.Constant valOne) none .Integer,
      ColumnCatalog.new "(a + 1)" true (ColumnDesc.new .Integer false false none),
      rfl, rfl, rfl⟩

/-- Claim C6 (amended): `try_reference` never descends into a
pre-existing `Reference` node.  Whenever it succeeds on a `Reference`
root, the result is either the untouched node itself (no summary match in
the output list) or that same node re-wrapped, intact, inside a fresh
`Reference` (summary match); its inner expression is never rewritten. -/
theorem c6_try_reference_stops_at_references
    (e : ScalarExpression) (pos : Nat) (output_exprs : List ScalarExpression)
    (r : ScalarExpression)
    (h : ScalarExpression.try_reference (.Reference e pos) output_exprs
      = some r) :
    r = .Reference e pos ∨ ∃ j, r = .Reference (.Reference e pos) j := by
  simp only [ScalarExpression.try_reference] at h
  split at h
  · exact absurd h (by simp)
  · split at h
    · exact absurd h (by simp)
    · injection h with h'
      exact Or.inr ⟨_, h'.symm⟩
    · injection h with h'
      exact Or.inl h'.symm

/-- Witness for C6: rewriting `Reference { ColumnRef(a), pos: 5 }`
against an empty output list succeeds and leaves the node intact. -/
theorem c6_witness :
    (ScalarExpression.Reference (.ColumnRef colA_int) 5
        = ScalarExpression.Reference (.ColumnRef colA_int) 5)
      ∨ ∃ j, ScalarExpression.Reference (.ColumnRef colA_int) 5
        = ScalarExpression.Reference (.Reference (.ColumnRef colA_int) 5) j :=
  c6_try_reference_stops_at_references (.ColumnRef colA_int) 5 [] _
    (by simp [ScalarExpression.try_reference, ScalarExpression.find_match_pos,
      ScalarExpression.output_column])

/-- Claim C8 (amended): `unpack_alias` strips alias wrappers only at the
root, so `output_name` is preserved exactly when the root is not an
`Alias` (in which case `unpack_alias` is the identity); and for every
expression the result of `unpack_alias` is never an `Alias` node — all
root alias wrappers, name and expression aliases alike, are stripped down
to the innermost non-alias expression. -/
theorem c8_unpack_alias_strips_root_aliases (e : ScalarExpression) :
    (e.is_alias_node = false → e.unpack_alias = e)
    ∧ (e.unpack_alias).is_alias_node = false := by
  induction e using ScalarExpression.unpack_alias.induct with
  | case1 expr e ih =>
      refine ⟨fun h => by simp [ScalarExpression.is_alias_node] at h, ?_⟩
      have : (ScalarExpression.Alias expr (AliasType.Expr e)).unpack_alias
          = e.unpack_alias := by
        simp [ScalarExpression.unpack_alias]
      rw [this]
      exact ih.2
  | case2 e s ih =>
      refine ⟨fun h => by simp [ScalarExpression.is_alias_node] at h, ?_⟩
      have : (ScalarExpression.Alias e (AliasType.Name s)).unpack_alias
          = e.unpack_alias := by
        simp [ScalarExpression.unpack_alias]
      rw [this]
      exact ih.2
  | case3 e h1 h2 =>
      have hne : e.is_alias_node = false := by
        cases e
        case Alias ex a =>
          cases a
          case Expr ae => exact absurd rfl (h1 ex ae)
          case Name s => exact absurd rfl (h2 ex s)
        all_goals rfl
      have hunfold : e.unpack_alias = e := by
        cases e
        case Alias ex a =>
          cases a
          case Expr ae => exact absurd rfl (h1 ex ae)
          case Name s => exact absurd rfl (h2 ex s)
        all_goals simp [ScalarExpression.unpack_alias]
      exact ⟨fun _ => hunfold, by rw [hunfold]; exact hne⟩

/-- Witness for C8: unpacking the spec's doubly-aliased example yields a
non-alias expression, and on the alias-free `ColumnRef(a)` the unpacking
is the identity (so its output name is preserved). -/
theorem c8_witness :
    (ScalarExpression.unpack_alias
      (.Alias (.Alias (.ColumnRef colA_int) (.Name "x")) (.Name "y"))
      ).is_alias_node = false
    ∧ ScalarExpression.unpack_alias (.ColumnRef colA_int)
      = .ColumnRef colA_int :=
  ⟨(c8_unpack_alias_strips_root_aliases
      (.Alias (.Alias (.ColumnRef colA_int) (.Name "x")) (.Name "y"))).2,
    (c8_unpack_alias_strips_root_aliases (.ColumnRef colA_int)).1 rfl⟩

/-- Claim C9 (confirmed): on a `Binary` node, `bind_evaluator` returns a
`TypeMismatch` error whenever `max_logical_type` fails on the return
types of the two already-bound operands, and it is all-or-nothing — a
failure while binding the left operand aborts the call with that error,
as does a failure on the right operand after a successful left, and the
call returns `Ok` only if binding succeeded on both operands. -/
theorem c9_bind_evaluator_binary_error_handling
    (F : EvaluatorFactory) (op : BinaryOperator)
    (l r : ScalarExpression) (ev : Option BinaryEvaluatorBox)
    (ty : LogicalType) :
    (∀ l' r' tl tr,
      l.bind_evaluator F = .ok l' → r.bind_evaluator F = .ok r' →
      l'.return_type = some tl → r'.return_type = some tr →
      LogicalType.max_logical_type tl tr = none →
      (ScalarExpression.Binary op l r ev ty).bind_evaluator F
        = .error .TypeMismatch)
    ∧ (∀ d, l.bind_evaluator F = .error d →
        (ScalarExpression.Binary op l r ev ty).bind_evaluator F = .error d)
    ∧ (∀ l' d, l.bind_evaluator F = .ok l' → r.bind_evaluator F = .error d →
        (ScalarExpression.Binary op l r ev ty).bind_evaluator F = .error d)
    ∧ (∀ e', (ScalarExpression.Binary op l r ev ty).bind_evaluator F = .ok e' →
        ∃ l' r', l.bind_evaluator F = .ok l' ∧ r.bind_evaluator F = .ok r') := by
  refine ⟨?_, ?_, ?_, ?_⟩
  · intro l' r' tl tr hl hr htl htr hmax
    simp only [ScalarExpression.bind_evaluator, hl, hr, htl, htr, hmax]
  · intro d hl
    simp only [ScalarExpression.bind_evaluator, hl]
  · intro l' d hl hr
    simp only [ScalarExpression.bind_evaluator, hl, hr]
  · intro e' h
    simp only [ScalarExpression.bind_evaluator] at h
    cases hl : l.bind_evaluator F with
    | error d => rw [hl] at h; simp at h
    | ok l' =>
        cases hr : r.bind_evaluator F with
        | error d => rw [hl] at h; simp only [hr] at h; simp at h
        | ok r' => exact ⟨l', r', rfl, rfl⟩

/-- Witness for C9: binding `(c: Boolean) + (a: Integer)` fails with
`TypeMismatch` because the promotion of `Boolean` and `Integer` fails. -/
theorem c9_witness :
    ScalarExpression.bind_evaluator specFactory
      (.Binary .Plus (.ColumnRef colC_bool) (.ColumnRef colA_int) none .Boolean)
    = .error .TypeMismatch :=
  (c9_bind_evaluator_binary_error_handling specFactory .Plus
    (.ColumnRef colC_bool) (.ColumnRef colA_int) none .Boolean).1
    (.ColumnRef colC_bool) (.ColumnRef colA_int) .Boolean .Integer
    rfl rfl rfl rfl rfl

/-- Claim C7 (amended): for every expression free of `Empty`,
`TableFunction` and `Reference` nodes and containing no expression-alias,
`has_agg_call` returns a boolean, and that boolean is `true` exactly when
the tree contains an `AggCall` node.  (The source's `has_agg_call`
declares `Reference` unreachable and skips expression-alias payloads, so
the claim's inclusion of `Reference`-bearing trees fails; see the
counterexample.) -/
theorem c7_has_agg_call_iff_contains_agg_call
    (e : ScalarExpression)
    (h1 : ScalarExpression.no_empty_or_table_function e = true)
    (h2 : ScalarExpression.contains_reference e = false)
    (h3 : ScalarExpression.no_expr_alias e = true) :
    e.has_agg_call = some e.contains_agg_call := by
  simp only [ScalarExpression.no_empty_or_table_function,
    ScalarExpression.contains_reference, ScalarExpression.no_expr_alias,
    Bool.not_eq_true', Bool.not_eq_false] at h1 h2 h3
  revert h3
  revert h2
  revert h1
  simp only [ScalarExpression.contains_agg_call]
  refine ScalarExpression.has_agg_call.induct
    (fun e => ScalarExpression.exists_node ScalarExpression.is_empty_or_table_function_node e = false →
      ScalarExpression.exists_node ScalarExpression.is_reference_node e = false →
      ScalarExpression.exists_node ScalarExpression.is_expr_alias_node e = false →
      e.has_agg_call = some (ScalarExpression.exists_node ScalarExpression.is_agg_call_node e))
    (fun ps => ScalarExpression.exists_node_pairs ScalarExpression.is_empty_or_table_function_node ps = false →
      ScalarExpression.exists_node_pairs ScalarExpression.is_reference_node ps = false →
      ScalarExpression.exists_node_pairs ScalarExpression.is_expr_alias_node ps = false →
      ScalarExpression.has_agg_call_pairs ps = some (ScalarExpression.exists_node_pairs ScalarExpression.is_agg_call_node ps))
    (fun o => ScalarExpression.exists_node_opt ScalarExpression.is_empty_or_table_function_node o = false →
      ScalarExpression.exists_node_opt ScalarExpression.is_reference_node o = false →
      ScalarExpression.exists_node_opt ScalarExpression.is_expr_alias_node o = false →
      ScalarExpression.has_agg_call_opt o = some (ScalarExpression.exists_node_opt ScalarExpression.is_agg_call_node o))
    (fun l => ScalarExpression.exists_node_list ScalarExpression.is_empty_or_table_function_node l = false →
      ScalarExpression.exists_node_list ScalarExpression.is_reference_node l = false →
      ScalarExpression.exists_node_list ScalarExpression.is_expr_alias_node l = false →
      ScalarExpression.has_agg_call_list l = some (ScalarExpression.exists_node_list ScalarExpression.is_agg_call_node l))
    ?_ ?_ ?_ ?hAlias ?_ ?_ ?_ ?_ ?_ ?_ ?_ ?_ ?_ ?_ ?_ ?_ ?_ ?_ ?_ ?_ ?_ ?_ ?_ ?_ ?_ ?_ ?_ ?_ ?_ e
  case hAlias =>
    intro ex al ih hETF hRef hEA
    cases al with
    | Expr ae =>
        simp [ScalarExpression.exists_node, ScalarExpression.is_expr_alias_node] at hEA
    | Name s =>
        simp only [ScalarExpression.exists_node, ScalarExpression.exists_node_alias,
          ScalarExpression.is_empty_or_table_function_node,
          ScalarExpression.is_reference_node, ScalarExpression.is_expr_alias_node,
          ScalarExpression.is_agg_call_node, Bool.or_eq_false_iff, Bool.or_false,
          Bool.false_or] at hETF hRef hEA ⊢
        simp [ScalarExpression.has_agg_call, ih hETF hRef hEA]
  all_goals
    intros
    try beta_reduce
    intros
    simp_all only [ScalarExpression.exists_node, ScalarExpression.exists_node_list,
      ScalarExpression.exists_node_opt, ScalarExpression.exists_node_pairs,
      ScalarExpression.exists_node_alias,
      ScalarExpression.is_empty_or_table_function_node,
      ScalarExpression.is_reference_node, ScalarExpression.is_expr_alias_node,
      ScalarExpression.is_agg_call_node,
      ScalarExpression.has_agg_call, ScalarExpression.has_agg_call_list,
      ScalarExpression.has_agg_call_opt, ScalarExpression.has_agg_call_pairs,
      orO_some_some, Bool.or_eq_false_iff, Bool.or_false, Bool.false_or,
      Bool.true_or, Bool.or_true, Bool.or_assoc]
  all_goals simp_all

/-- Witness for C7: `Sum(a) + 1` is walker-safe and contains an
aggregate call, and `has_agg_call` reports exactly that. -/
theorem c7_witness :
    ScalarExpression.has_agg_call
      (.Binary .Plus (.AggCall false .Sum [.ColumnRef colA_int] .Integer)
        (.Constant valOne) none .Integer)
    = some (ScalarExpression.contains_agg_call
        (.Binary .Plus (.AggCall false .Sum [.ColumnRef colA_int] .Integer)
          (.Constant valOne) none .Integer)) :=
  c7_has_agg_call_iff_contains_agg_call
    (.Binary .Plus (.AggCall false .Sum [.ColumnRef colA_int] .Integer)
      (.Constant valOne) none .Integer)
    rfl rfl rfl

/-- Claim C10 (amended): for every expression containing a `Reference`
node in a position the `columns_collect` traversal visits (anywhere
except inside an expression-alias payload, which the `Alias` arm skips)
and for either value of `only_column_ref`, `referenced_columns` does not
return a result — the `Reference` arm of the traversal is
`unreachable!`. -/
theorem c10_referenced_columns_aborts_on_visited_reference
    (e : ScalarExpression) (b : Bool)
    (h : ScalarExpression.contains_ref_collect e = true) :
    ScalarExpression.referenced_columns e b = none := by
  suffices key : ScalarExpression.contains_ref_collect e = true →
      ScalarExpression.columns_collect b e = none by
    exact key h
  clear h
  apply ScalarExpression.contains_ref_collect.induct
    (fun t => ScalarExpression.contains_ref_collect t = true →
      ScalarExpression.columns_collect b t = none)
    (fun ps => ScalarExpression.contains_ref_collect_pairs ps = true →
      ScalarExpression.columns_collect_pairs b ps = none)
    (fun o => ScalarExpression.contains_ref_collect_opt o = true →
      ScalarExpression.columns_collect_opt b o = none)
    (fun l => ScalarExpression.contains_ref_collect_list l = true →
      ScalarExpression.columns_collect_list b l = none)
  all_goals intros
  all_goals try simp only [ScalarExpression.contains_ref_collect,
    ScalarExpression.contains_ref_collect_list,
    ScalarExpression.contains_ref_collect_opt,
    ScalarExpression.contains_ref_collect_pairs, Bool.or_eq_true] at *
  all_goals try casesm* _ ∨ _
  all_goals try simp_all only []
  all_goals simp_all only [ScalarExpression.columns_collect,
    ScalarExpression.columns_collect_list,
    ScalarExpression.columns_collect_opt,
    ScalarExpression.columns_collect_pairs,
    opt_append_none_right, opt_append_none_left]
  all_goals simp_all

/-- Witness for C10: a tree with a `Reference` operand makes
`referenced_columns` abort. -/
theorem c10_witness :
    ScalarExpression.referenced_columns
      (.Binary .Plus (.Reference (.ColumnRef colA_int) 0) (.Constant valOne)
        none .Integer) true = none :=
  c10_referenced_columns_aborts_on_visited_reference
    (.Binary .Plus (.Reference (.ColumnRef colA_int) 0) (.Constant valOne)
      none .Integer) true rfl

/-- Unfolding of the `Binary` arm of `bind_evaluator` on success: both
operands were bound, `t` is the promotion of their post-binding return
types, an operand is cast-wrapped exactly when its type differs from `t`,
and the attached evaluator is the factory's evaluator for `(t, op)`. -/
theorem bind_binary_root_description
    (F : EvaluatorFactory) (op : BinaryOperator) (l r : ScalarExpression)
    (ev : Option BinaryEvaluatorBox) (ty : LogicalType) (e' : ScalarExpression)
    (h : ScalarExpression.bind_evaluator F (.Binary op l r ev ty) = .ok e') :
    ∃ l' r' tl tr t box,
      ScalarExpression.bind_evaluator F l = .ok l' ∧
      ScalarExpression.bind_evaluator F r = .ok r' ∧
      l'.return_type = some tl ∧ r'.return_type = some tr ∧
      LogicalType.max_logical_type tl tr = some t ∧
      F.binary_create t op = some box ∧
      e' = .Binary op (if tl = t then l' else .TypeCast l' t)
        (if tr = t then r' else .TypeCast r' t) (some box) ty := by
  simp only [ScalarExpression.bind_evaluator] at h
  cases hl : ScalarExpression.bind_evaluator F l with
  | error d => simp only [hl] at h; simp at h
  | ok l' =>
    simp only [hl] at h
    cases hr : ScalarExpression.bind_evaluator F r with
    | error d => simp only [hr] at h; simp at h
    | ok r' =>
      simp only [hr] at h
      cases htl : l'.return_type with
      | none => simp only [htl] at h; simp at h
      | some tl =>
        simp only [htl] at h
        cases htr : r'.return_type with
        | none => simp only [htr] at h; simp at h
        | some tr =>
          simp only [htr] at h
          cases hmax : LogicalType.max_logical_type tl tr with
          | none => simp only [hmax] at h; simp at h
          | some t =>
            simp only [hmax] at h
            cases hbox : F.binary_create t op with
            | none => simp only [hbox] at h; simp at h
            | some box =>
              simp only [hbox] at h
              simp only [Except.ok.injEq] at h
              refine ⟨l', r', tl, tr, t, box, ?_, ?_, ?_, ?_, ?_, ?_, ?_⟩ <;>
                first
                  | rfl
                  | exact hl
                  | exact hr
                  | exact htl
                  | exact htr
                  | exact hmax
                  | exact hbox
                  | exact h.symm

/-- Every node visited by a successful `bind_evaluator` satisfies the
binary post-binding invariant `binary_ok`. -/
theorem bind_evaluator_binary_bound_visited_aux (F : EvaluatorFactory) :
    ∀ (e e' : ScalarExpression),
      ScalarExpression.bind_evaluator F e = .ok e' →
      ScalarExpression.binary_bound_visited F e' = true := by
  intro e
  apply ScalarExpression.bind_evaluator.induct F
    (fun t => ∀ e', ScalarExpression.bind_evaluator F t = .ok e' →
      ScalarExpression.binary_bound_visited F e' = true)
    (fun ps => ∀ ps', ScalarExpression.bind_evaluator_pairs F ps = .ok ps' →
      ScalarExpression.forall_visited_bind_pairs (ScalarExpression.binary_ok F) ps' = true)
    (fun o => ∀ o', ScalarExpression.bind_evaluator_opt F o = .ok o' →
      ScalarExpression.forall_visited_bind_opt (ScalarExpression.binary_ok F) o' = true)
    (fun l => ∀ l', ScalarExpression.bind_evaluator_list F l = .ok l' →
      ScalarExpression.forall_visited_bind_list (ScalarExpression.binary_ok F) l' = true)
  all_goals intros
  all_goals try simp only [ScalarExpression.bind_evaluator,
    ScalarExpression.bind_evaluator_list, ScalarExpression.bind_evaluator_opt,
    ScalarExpression.bind_evaluator_pairs] at *
  all_goals try simp_all only [Except.ok.injEq, forall_eq, forall_eq', if_true]
  all_goals try contradiction
  all_goals try subst_vars
  all_goals try simp_all only [ScalarExpression.binary_bound_visited,
    ScalarExpression.forall_visited_bind, ScalarExpression.forall_visited_bind_list,
    ScalarExpression.forall_visited_bind_opt, ScalarExpression.forall_visited_bind_pairs,
    ScalarExpression.binary_ok, ScalarExpression.return_type,
    Bool.and_eq_true, decide_eq_true_eq, and_true, true_and]
  all_goals try (split_ifs <;> simp_all only [ScalarExpression.binary_bound_visited,
    ScalarExpression.forall_visited_bind, ScalarExpression.forall_visited_bind_list,
    ScalarExpression.forall_visited_bind_opt, ScalarExpression.forall_visited_bind_pairs,
    ScalarExpression.binary_ok, ScalarExpression.return_type,
    Bool.and_eq_true, decide_eq_true_eq, and_true, true_and])
  all_goals try simp_all
  all_goals try (rename_i heq; subst heq; simp_all only
    [ScalarExpression.binary_bound_visited, ScalarExpression.forall_visited_bind,
     ScalarExpression.binary_ok, ScalarExpression.return_type,
     Bool.and_eq_true, decide_eq_true_eq, and_true, true_and])

/-- Claim C1 (amended): after a successful `bind_evaluator`, every
`Binary` node the binder's traversal visits (all structural positions
except inside a `Reference`'s retained expression or an expression-alias
payload) has operands with equal, defined return types whose common type
is exactly the type passed to the evaluator factory for the attached
evaluator; and at each bound `Binary` node that common type is the
`max_logical_type` promotion of the operands' post-binding return types,
with any operand whose type differed wrapped in `TypeCast { ty: t }`. -/
theorem c1_bound_binary_nodes_have_equal_operand_types :
    (∀ (F : EvaluatorFactory) (e e' : ScalarExpression),
        ScalarExpression.bind_evaluator F e = .ok e' →
        ScalarExpression.binary_bound_visited F e' = true)
    ∧ (∀ (F : EvaluatorFactory) (op : BinaryOperator) (l r : ScalarExpression)
        (ev : Option BinaryEvaluatorBox) (ty : LogicalType)
        (e' : ScalarExpression),
        ScalarExpression.bind_evaluator F (.Binary op l r ev ty) = .ok e' →
        ∃ l' r' tl tr t box,
          ScalarExpression.bind_evaluator F l = .ok l' ∧
          ScalarExpression.bind_evaluator F r = .ok r' ∧
          l'.return_type = some tl ∧ r'.return_type = some tr ∧
          LogicalType.max_logical_type tl tr = some t ∧
          F.binary_create t op = some box ∧
          e' = .Binary op (if tl = t then l' else .TypeCast l' t)
            (if tr = t then r' else .TypeCast r' t) (some box) ty) :=
  ⟨fun F => bind_evaluator_binary_bound_visited_aux F,
    fun F op l r ev ty e' h =>
      bind_binary_root_description F op l r ev ty e' h⟩

/-- Witness for C1: the spec's implicit-widening scenario.  Binding
`(a: Integer) + (b: Bigint)` wraps `a` in a cast to `Bigint` and the
resulting tree satisfies the visited-binary invariant. -/
theorem c1_witness :
    ScalarExpression.binary_bound_visited specFactory
      (.Binary .Plus (.TypeCast (.ColumnRef colA_int) .Bigint)
        (.ColumnRef colB_big) (some ⟨.Bigint, .Plus⟩) .Bigint) = true :=
  c1_bound_binary_nodes_have_equal_operand_types.1 specFactory
    (.Binary .Plus (.ColumnRef colA_int) (.ColumnRef colB_big) none .Bigint)
    (.Binary .Plus (.TypeCast (.ColumnRef colA_int) .Bigint)
      (.ColumnRef colB_big) (some ⟨.Bigint, .Plus⟩) .Bigint)
    rfl
